import Mathlib

/-!
Verification of the BetXPes match lifecycle core: the match outcome
simulator, the odds engine, the global week-advancement state machine, the
betting-phase settlement pipeline, and the time-based match scheduler.

Each definition is a shallow embedding of the corresponding TypeScript
function.  JavaScript `Math.random()` draws are modelled as an explicit
stream `g : Nat -> Rat` together with a cursor `k`: every call to
`Math.random()` reads `g k` and advances the cursor by one, mirroring the
exact number and order of draws made by the source (including draws skipped
by `&&` short-circuiting).  Rational constants are written with `mkRat` so
that concrete runs reduce inside the kernel.
-/

/-- Team tag of a goal event (the source uses the strings "home"/"away"). -/
inductive Team where
  | home
  | away
deriving DecidableEq

/-- Goal event emitted by the simulator: `{ time: t, team: who }`. -/
structure GoalEvent where
  time : Nat
  team : Team
deriving DecidableEq

/-- Match winner (the source uses the strings "home"/"away"/"draw"). -/
inductive MatchWinner where
  | home
  | away
  | draw
deriving DecidableEq

/-- Result of `simulateMatch`: `{ homeGoals, awayGoals, winner, events }`. -/
structure SimResult where
  homeGoals : Nat
  awayGoals : Nat
  winner : MatchWinner
  events : List GoalEvent
deriving DecidableEq

/-- Admin override accepted by `simulateMatch` when both goal targets are
defined; `winner` is the optional explicit winner (absent models the falsy
`adminOverride.winner` check). -/
structure AdminOverride where
  homeGoals : Nat
  awayGoals : Nat
  winner : Option MatchWinner
deriving DecidableEq

/-- Winner derivation used by the source in both simulation paths and in
settlement: home if more home goals, away if more away goals, else draw. -/
def winnerOf (homeGoals awayGoals : Nat) : MatchWinner :=
  if homeGoals > awayGoals then MatchWinner.home
  else if awayGoals > homeGoals then MatchWinner.away
  else MatchWinner.draw

/-- Unforced simulation loop of `simulateMatch`: one iteration per tick `t`,
a goal with probability 0.07, team chosen by a second draw.  Returns the
event list together with the running `homeGoals`/`awayGoals` counters that
the source increments alongside each push.  `fuel` is the number of
remaining ticks (`duration - t + 1`). -/
def simLoop (g : Nat → ℚ) (k t fuel : Nat) : List GoalEvent × Nat × Nat :=
  match fuel with
  | 0 => ([], 0, 0)
  | fuel' + 1 =>
    if g k < mkRat 7 100 then
      if g (k + 1) < mkRat 1 2 then
        let r := simLoop g (k + 2) (t + 1) fuel'
        (⟨t, Team.home⟩ :: r.1, r.2.1 + 1, r.2.2)
      else
        let r := simLoop g (k + 2) (t + 1) fuel'
        (⟨t, Team.away⟩ :: r.1, r.2.1, r.2.2 + 1)
    else
      simLoop g (k + 1) (t + 1) fuel'

/-- Forced simulation loop of `simulateMatch` under an admin override: runs
while ticks remain and a target is still positive, emits a goal with
probability 0.10, preferring home on a coin flip while home's remaining
target is positive (the coin draw is skipped by `&&` short-circuit when the
home target is exhausted).  `hRem`/`aRem` are the remaining goal targets. -/
def forcedLoop (g : Nat → ℚ) (k t hRem aRem fuel : Nat) : List GoalEvent :=
  match fuel with
  | 0 => []
  | fuel' + 1 =>
    if hRem = 0 ∧ aRem = 0 then []
    else if g k < mkRat 1 10 then
      if 0 < hRem then
        if g (k + 1) < mkRat 1 2 then
          ⟨t, Team.home⟩ :: forcedLoop g (k + 2) (t + 1) (hRem - 1) aRem fuel'
        else if 0 < aRem then
          ⟨t, Team.away⟩ :: forcedLoop g (k + 2) (t + 1) hRem (aRem - 1) fuel'
        else
          forcedLoop g (k + 2) (t + 1) hRem aRem fuel'
      else if 0 < aRem then
        ⟨t, Team.away⟩ :: forcedLoop g (k + 1) (t + 1) hRem (aRem - 1) fuel'
      else
        forcedLoop g (k + 1) (t + 1) hRem aRem fuel'
    else
      forcedLoop g (k + 1) (t + 1) hRem aRem fuel'

/-- Embedding of `simulateMatch(matchId, duration = 40, adminOverride)`.
With an override carrying both goal targets the returned score is the
override's; the winner is the explicit override winner when present, else
derived from the targets; events are generated by `forcedLoop`.  Without an
override the score is the pair of event counters of `simLoop` and the
winner is derived from them.  `matchId` is unused, exactly as in the
source. -/
def simulateMatch (matchId : String) (duration : Nat)
    (adminOverride : Option AdminOverride) (g : Nat → ℚ) (k : Nat) : SimResult :=
  match adminOverride with
  | some ov =>
    let winner := match ov.winner with
      | some w => w
      | none => winnerOf ov.homeGoals ov.awayGoals
    { homeGoals := ov.homeGoals, awayGoals := ov.awayGoals, winner := winner,
      events := forcedLoop g k 1 ov.homeGoals ov.awayGoals duration }
  | none =>
    let r := simLoop g k 1 duration
    { homeGoals := r.2.1, awayGoals := r.2.2,
      winner := winnerOf r.2.1 r.2.2, events := r.1 }

/-- JavaScript `Math.floor` on an exact rational. -/
def jsFloor (q : ℚ) : Int :=
  Int.fdiv q.num q.den

/-- Embedding of `getProgressiveScore(events, matchMinute, duration = 40)`:
map the match minute to a simulation second via
`Math.floor((matchMinute / 90) * duration)` and count the events of each
team with `time <= simSecond`. -/
def getProgressiveScore (events : List GoalEvent) (matchMinute : ℚ)
    (duration : Nat) : Nat × Nat :=
  let simSecond := jsFloor (matchMinute / 90 * duration)
  (events.countP (fun e => decide ((e.time : Int) ≤ simSecond) && (e.team == Team.home)),
   events.countP (fun e => decide ((e.time : Int) ≤ simSecond) && (e.team == Team.away)))

/-- Count of the events of one team, the quantity the source accumulates
for `homeGoals`/`awayGoals`. -/
def countTeam (tm : Team) (events : List GoalEvent) : Nat :=
  events.countP (fun e => e.team == tm)

/-- Rendering of an odds value held in integer cents, mirroring
`Number.prototype.toFixed(2)` on the source's two-decimal constants. -/
def fixed2 (cents : Nat) : String :=
  toString (cents / 100) ++ "." ++
    (if cents % 100 < 10 then "0" ++ toString (cents % 100) else toString (cents % 100))

/-- Checks that a string is rendered with exactly two decimal places:
digits, one dot, then exactly two digits. -/
def hasTwoDecimals (s : String) : Bool :=
  match s.data.reverse with
  | c2 :: c1 :: c0 :: rest =>
    c2.isDigit && c1.isDigit && (c0 == '.') && !rest.isEmpty && rest.all Char.isDigit
  | _ => false

/-- One market of the odds board: parallel selection and odds lists. -/
structure OddsEntry where
  selections : List String
  odds : List String
deriving DecidableEq

/-- Embedding of `calculateDynamicOdds(homeGoals, awayGoals)`.  Odds values
are carried in cents (e.g. `120` for 1.20) and rendered with `fixed2`; the
half-integer over/under thresholds are compared over the rationals exactly
as the source compares `totalGoals` against 1.5/2.5/3.5/4.5.  The source's
initial `2.10/3.20/2.80` assignments to the 1X2 odds are dead (every branch
of the following if/else chain overwrites them) and are therefore not
modelled.  The board is the source's returned object as an ordered list of
market entries. -/
def calculateDynamicOdds (homeGoals awayGoals : Nat) : List (String × OddsEntry) :=
  let totalGoals := homeGoals + awayGoals
  let odds1 := if homeGoals > awayGoals then 120
    else if awayGoals > homeGoals then 800 else 400
  let oddsX := if homeGoals > awayGoals then 500
    else if awayGoals > homeGoals then 500 else 115
  let odds2 := if homeGoals > awayGoals then 800
    else if awayGoals > homeGoals then 120 else 400
  let bttsYes := if homeGoals > 0 ∧ awayGoals > 0 then 110 else 250
  let bttsNo := if homeGoals > 0 ∧ awayGoals > 0 then 400 else 120
  let ov15 := if (totalGoals : ℚ) > mkRat 3 2 then 115 else 320
  let un15 := if (totalGoals : ℚ) < mkRat 3 2 then 115 else 320
  let ov25 := if (totalGoals : ℚ) > mkRat 5 2 then 130 else 250
  let un25 := if (totalGoals : ℚ) < mkRat 5 2 then 130 else 250
  let ov35 := if (totalGoals : ℚ) > mkRat 7 2 then 140 else 220
  let un35 := if (totalGoals : ℚ) < mkRat 7 2 then 140 else 220
  let ov45 := if (totalGoals : ℚ) > mkRat 9 2 then 200 else 180
  let un45 := if (totalGoals : ℚ) < mkRat 9 2 then 180 else 200
  let oddGoals := totalGoals % 2 = 1
  let oddOdds := if oddGoals then 110 else 300
  let evenOdds := if oddGoals then 300 else 110
  [("1X2",
    { selections := ["1", "X", "2"],
      odds := [fixed2 odds1, fixed2 oddsX, fixed2 odds2] }),
   ("BTTS",
    { selections := ["Yes", "No"],
      odds := [fixed2 bttsYes, fixed2 bttsNo] }),
   ("OV/UN 1.5",
    { selections := ["Over 1.5", "Under 1.5"],
      odds := [fixed2 ov15, fixed2 un15] }),
   ("OV/UN 2.5",
    { selections := ["Over 2.5", "Under 2.5"],
      odds := [fixed2 ov25, fixed2 un25] }),
   ("Total Goals",
    { selections := ["Over 2.5", "Over 3.5", "Over 4.5", "Under 2.5", "Under 3.5", "Under 4.5"],
      odds := ["1.85", fixed2 ov35, fixed2 ov45, fixed2 un25, fixed2 un35, fixed2 un45] }),
   ("Time of First Goal",
    { selections := ["0-15 min", "16-30 min", "31-45 min", "46-60 min", "61-75 min", "76-90 min"],
      odds := ["1.05", "1.05", "1.05", "2.50", "3.50", "4.00"] }),
   ("Total Goals Odd/Even",
    { selections := ["Odd", "Even"],
      odds := [fixed2 oddOdds, fixed2 evenOdds] })]

/-- Phase of the global match clock (the source's `matchState` strings
`pre-countdown` / `playing` / `betting` / `next-countdown`). -/
inductive MatchPhase where
  | preCountdown
  | playing
  | betting
  | nextCountdown
deriving DecidableEq

/-- Season length used by the week-advancement effect (`totalWeeks = 36`). -/
def totalWeeks : Nat := 36

/-- One week of the fixture schedule produced by `generateLeagueFixtures`;
`weekMatches` is the source's `matches` field (`matches` is reserved in
Lean). -/
structure FixtureWeek where
  week : Nat
  weekMatches : List (String × String)
deriving DecidableEq

/-- Embedding of `generateLeagueFixtures(league)`: for each week `1..36`,
pair the team at rotated index `(week + i) % n` against the team at rotated
index `(week + n - i - 1) % n` for integer `i < n / 2`, i.e. for
`i < ceil(n / 2)` many iterations of the JavaScript loop. -/
def generateLeagueFixtures (teams : List String) : List FixtureWeek :=
  (List.range totalWeeks).map (fun w =>
    let week := w + 1
    { week := week,
      weekMatches := (List.range ((teams.length + 1) / 2)).filterMap (fun i =>
        match teams.get? ((week + i) % teams.length),
              teams.get? ((week + teams.length - i - 1) % teams.length) with
        | some h, some a => some (h, a)
        | _, _ => none) })

/-- Component state read and written by the week-advancement effect:
`prevMatchState`, the `hasAdvancedThisCycle` guard, the active timeframe
index (with its mirror `liveTimeframeIdx`) and the fixture schedule. -/
structure WeekAdvanceState where
  prevMatchState : MatchPhase
  hasAdvancedThisCycle : Bool
  currentTimeframeIdx : Nat
  liveTimeframeIdx : Nat
  fixtureSchedule : List FixtureWeek
deriving DecidableEq

/-- Environment of the week-advancement effect: whether the global-time
system is active (the effect is skipped), whether `checkAndAutoReshuffle`
fires at the season wrap (in the source this triggers a page reload), and
the league's teams used to regenerate fixtures. -/
structure WeekAdvanceEnv where
  globalTimeActive : Bool
  autoReshuffleFires : Bool
  leagueTeams : List String
deriving DecidableEq

/-- One run of the week-advancement `useEffect` observing `matchState`.
Skipped entirely when the global-time system is active.  On a
`next-countdown → pre-countdown` transition with the guard clear, the
timeframe index advances; past the final week, `checkAndAutoReshuffle`
either fires (the source schedules `window.location.reload()` and exits
early: modelled as `none`) or the fixtures are regenerated and the index
wraps to 0.  Otherwise the guard is cleared whenever the observed phase is
not `pre-countdown`, and `prevMatchState` is updated to the observed
phase. -/
def weekAdvanceEffect (env : WeekAdvanceEnv) (s : WeekAdvanceState)
    (matchState : MatchPhase) : Option WeekAdvanceState :=
  if env.globalTimeActive then some s
  else if s.prevMatchState = MatchPhase.nextCountdown ∧
      matchState = MatchPhase.preCountdown ∧ s.hasAdvancedThisCycle = false then
    let nextIdx := s.currentTimeframeIdx + 1
    if totalWeeks ≤ nextIdx then
      if env.autoReshuffleFires then none
      else some
        { prevMatchState := matchState, hasAdvancedThisCycle := true,
          currentTimeframeIdx := 0, liveTimeframeIdx := 0,
          fixtureSchedule := generateLeagueFixtures env.leagueTeams }
    else some
      { s with
        prevMatchState := matchState
        hasAdvancedThisCycle := true
        currentTimeframeIdx := nextIdx
        liveTimeframeIdx := nextIdx }
  else some
    { s with
      hasAdvancedThisCycle :=
        if matchState ≠ MatchPhase.preCountdown then false else s.hasAdvancedThisCycle,
      prevMatchState := matchState }

/-- Sequential runs of the week-advancement effect over the list of
observed `matchState` values; `none` when a run hit the reload path. -/
def runWeekAdvance (env : WeekAdvanceEnv) (s : WeekAdvanceState) :
    List MatchPhase → Option WeekAdvanceState
  | [] => some s
  | p :: ps =>
    match weekAdvanceEffect env s p with
    | none => none
    | some s' => runWeekAdvance env s' ps

/-- One match card of a timeframe, as stored in `matchupsByTimeframe`
(identifier and team names; display-only fields are not modelled). -/
structure MatchupEntry where
  id : String
  homeTeam : String
  awayTeam : String
deriving DecidableEq

/-- Environment of the settlement effect: the current phase, the selected
timeframe's match list (`none` when no time slot is selected or it has no
matchups), the per-match simulation cache, and which `matches` /
`match_results` rows exist in the external store. -/
structure SettlementEnv where
  matchState : MatchPhase
  timeframeMatches : Option (List MatchupEntry)
  matchSimCache : String → Option SimResult
  matchExistsInDb : String → Bool
  matchResultExistsInDb : String → Bool

/-- Externally visible operation of the settlement pipeline, in program
order: local history append, `matches.raw` status update, the
`match_results` upsert (`updateExisting` tells whether a row for the match
already existed, i.e. update-in-place versus insert), and the call to the
bet-resolution collaborator. -/
inductive SettlementAction where
  | saveHistory (matchId : String) (homeGoals awayGoals : Nat) (winner : MatchWinner)
  | updateMatchRaw (matchId : String) (homeGoals awayGoals : Nat)
  | upsertMatchResult (matchId : String) (homeGoals awayGoals : Nat)
      (winner : MatchWinner) (isFinal : Bool) (updateExisting : Bool)
  | resolveBets (matchId : String) (homeGoals awayGoals : Nat)
deriving DecidableEq

/-- Per-match body of `handleMatchResults`, as the ordered list of
operations it awaits for one match: nothing when the simulation cache has
no entry; otherwise the history append, then (only when the `matches` row
exists) the raw-status update, the `match_results` upsert with
`is_final = true` and the winner derived from the cached goals, and then
`resolveBetsForMatch(matchId, homeGoals, awayGoals)`. -/
def processMatchResult (env : SettlementEnv) (m : MatchupEntry) : List SettlementAction :=
  match env.matchSimCache m.id with
  | none => []
  | some sim =>
    SettlementAction.saveHistory m.id sim.homeGoals sim.awayGoals sim.winner ::
      (if env.matchExistsInDb m.id then
        [SettlementAction.updateMatchRaw m.id sim.homeGoals sim.awayGoals,
         SettlementAction.upsertMatchResult m.id sim.homeGoals sim.awayGoals
           (winnerOf sim.homeGoals sim.awayGoals) true (env.matchResultExistsInDb m.id),
         SettlementAction.resolveBets m.id sim.homeGoals sim.awayGoals]
      else [])

/-- Outcome of one run of the settlement `useEffect`: the settlement
operations performed, the deferred stale-bet sweep timers scheduled
(match id and delay in milliseconds), the value of the
`resultsSavedForPhase` flag afterwards, and the cleanup the effect returns
to React.  The source's effect body returns `undefined` — the closure that
would clear the sweep timers is returned from the async
`handleMatchResults` instead, where React never sees it — so
`reactCleanup` is always `none`. -/
structure SettlementEffectResult where
  actions : List SettlementAction
  sweepTimers : List (String × Nat)
  resultsSavedAfter : Bool
  reactCleanup : Option (List (String × Nat))
deriving DecidableEq

/-- One run of the settlement `useEffect`.  It fires when the phase is
`betting`, the timeframe has a match list, and the `resultsSavedForPhase`
guard is clear: then every match is processed per `processMatchResult`,
the guard is set, and one 95000 ms stale-bet sweep timer is scheduled per
match.  Independently, the guard is cleared whenever the phase is not
`betting`. -/
def settlementEffect (env : SettlementEnv) (resultsSavedForPhase : Bool) :
    SettlementEffectResult :=
  let ms := env.timeframeMatches.getD []
  let fired := env.matchState = MatchPhase.betting ∧
    env.timeframeMatches ≠ none ∧ resultsSavedForPhase = false
  { actions := if fired then (ms.map (processMatchResult env)).flatten else []
    sweepTimers := if fired then ms.map (fun m => (m.id, 95000)) else []
    resultsSavedAfter :=
      if env.matchState ≠ MatchPhase.betting then false
      else if fired then true else resultsSavedForPhase
    reactCleanup := none }

/-- Global schedule record: reference epoch and match interval in minutes
(timestamps in milliseconds, as JavaScript `Date.getTime()`). -/
structure GlobalSchedule where
  referenceEpoch : Int
  matchInterval : Int
deriving DecidableEq

/-- One match of the global pool used by the time-based system. -/
structure PoolMatch where
  id : String
  homeTeam : String
  awayTeam : String
  kickoffTime : Int
deriving DecidableEq

/-- Scheduled match returned by `getMatchAtTime` in
`matchScheduleService`. -/
structure ScheduledMatch where
  matchId : String
  scheduleIndex : Int
  scheduledStartTime : Int
  homeTeam : String
  awayTeam : String
deriving DecidableEq

/-- Embedding of `findScheduleIndexForTime(time, schedule)`:
`Math.floor((time - referenceEpoch) / (matchInterval * 60000))`.  For
integer millisecond timestamps and a positive interval this is exactly
floor division, `Int.fdiv`. -/
def findScheduleIndexForTime (time : Int) (sched : GlobalSchedule) : Int :=
  Int.fdiv (time - sched.referenceEpoch) (sched.matchInterval * 60000)

/-- Embedding of `calculateScheduledTime(scheduleIndex, schedule)`. -/
def calculateScheduledTime (scheduleIndex : Int) (sched : GlobalSchedule) : Int :=
  sched.referenceEpoch + scheduleIndex * sched.matchInterval * 60000

/-- Embedding of `getMatchAtTime(time, allMatches, schedule)` from
`matchScheduleService.ts`: `null` when the schedule index is negative,
otherwise the pool entry at `scheduleIndex % allMatches.length` (the
out-of-pool lookup that yields `undefined` and hence `null` in JavaScript
is the `none` branch of the list lookup). -/
def getMatchAtTime (time : Int) (allMatches : List PoolMatch)
    (sched : GlobalSchedule) : Option ScheduledMatch :=
  let scheduleIndex := findScheduleIndexForTime time sched
  if scheduleIndex < 0 then none
  else
    match allMatches.get? (scheduleIndex % (allMatches.length : Int)).toNat with
    | none => none
    | some m => some
      { matchId := m.id, scheduleIndex := scheduleIndex,
        scheduledStartTime := calculateScheduledTime scheduleIndex sched,
        homeTeam := m.homeTeam, awayTeam := m.awayTeam }

/-- Embedding of `getCurrentMatch()` from the global-time match system,
with the pool `getAllAvailableMatches()` and the current time passed
explicitly: `null` on an empty pool or a negative schedule index, otherwise
the pool entry at `currentIndex % allMatches.length` with its kickoff time
set to the scheduled slot time and the index appended to its id. -/
def getCurrentMatch (allMatches : List PoolMatch) (now : Int)
    (sched : GlobalSchedule) : Option PoolMatch :=
  if allMatches.length = 0 then none
  else
    let currentIndex := findScheduleIndexForTime now sched
    if currentIndex < 0 then none
    else
      (allMatches.get? (currentIndex % (allMatches.length : Int)).toNat).map
        (fun m =>
          { m with
            kickoffTime := calculateScheduledTime currentIndex sched,
            id := m.id ++ "-" ++ toString currentIndex })

theorem countTeam_cons (tm : Team) (e : GoalEvent) (l : List GoalEvent) :
    countTeam tm (e :: l) = countTeam tm l + (if e.team == tm then 1 else 0) := by
  simp [countTeam, List.countP_cons]

theorem simLoop_counts (g : Nat → ℚ) :
    ∀ (fuel k t : Nat),
      (simLoop g k t fuel).2.1 = countTeam Team.home (simLoop g k t fuel).1 ∧
      (simLoop g k t fuel).2.2 = countTeam Team.away (simLoop g k t fuel).1 := by
  intro fuel
  induction fuel with
  | zero => intro k t; simp [simLoop, countTeam]
  | succ n ih =>
    intro k t
    by_cases h1 : g k < mkRat 7 100
    · by_cases h2 : g (k + 1) < mkRat 1 2
      · have := ih (k + 2) (t + 1)
        simp only [simLoop, if_pos h1, if_pos h2, countTeam, List.countP_cons] at *
        simp_all
      · have := ih (k + 2) (t + 1)
        simp only [simLoop, if_pos h1, if_neg h2, countTeam, List.countP_cons] at *
        simp_all
    · have := ih (k + 1) (t + 1)
      simp only [simLoop, if_neg h1] at *
      exact this

theorem simLoop_time_bounds (g : Nat → ℚ) :
    ∀ (fuel k t : Nat), ∀ e ∈ (simLoop g k t fuel).1, t ≤ e.time ∧ e.time < t + fuel := by
  intro fuel
  induction fuel with
  | zero => intro k t e he; simp [simLoop] at he
  | succ n ih =>
    intro k t e he
    by_cases h1 : g k < mkRat 7 100
    · by_cases h2 : g (k + 1) < mkRat 1 2
      · simp only [simLoop, if_pos h1, if_pos h2, List.mem_cons] at he
        rcases he with rfl | he
        · simp
        · have := ih (k + 2) (t + 1) e he
          omega
      · simp only [simLoop, if_pos h1, if_neg h2, List.mem_cons] at he
        rcases he with rfl | he
        · simp
        · have := ih (k + 2) (t + 1) e he
          omega
    · simp only [simLoop, if_neg h1] at he
      have := ih (k + 1) (t + 1) e he
      omega

theorem simLoop_pairwise (g : Nat → ℚ) :
    ∀ (fuel k t : Nat),
      List.Pairwise (fun e1 e2 : GoalEvent => e1.time ≤ e2.time) (simLoop g k t fuel).1 := by
  intro fuel
  induction fuel with
  | zero => intro k t; simp [simLoop]
  | succ n ih =>
    intro k t
    by_cases h1 : g k < mkRat 7 100
    · by_cases h2 : g (k + 1) < mkRat 1 2
      · simp only [simLoop, if_pos h1, if_pos h2, List.pairwise_cons]
        refine ⟨fun e he => ?_, ih (k + 2) (t + 1)⟩
        exact Nat.le_of_succ_le (simLoop_time_bounds g n (k + 2) (t + 1) e he).1
      · simp only [simLoop, if_pos h1, if_neg h2, List.pairwise_cons]
        refine ⟨fun e he => ?_, ih (k + 2) (t + 1)⟩
        exact Nat.le_of_succ_le (simLoop_time_bounds g n (k + 2) (t + 1) e he).1
    · simp only [simLoop, if_neg h1]
      exact ih (k + 1) (t + 1)

theorem forcedLoop_counts_le (g : Nat → ℚ) :
    ∀ (fuel k t hRem aRem : Nat),
      countTeam Team.home (forcedLoop g k t hRem aRem fuel) ≤ hRem ∧
      countTeam Team.away (forcedLoop g k t hRem aRem fuel) ≤ aRem := by
  intro fuel
  induction fuel with
  | zero => intro k t hRem aRem; simp [forcedLoop, countTeam]
  | succ n ih =>
    intro k t hRem aRem
    by_cases h0 : hRem = 0 ∧ aRem = 0
    · simp [forcedLoop, h0, countTeam]
    · by_cases h1 : g k < mkRat 1 10
      · by_cases hh : 0 < hRem
        · by_cases h2 : g (k + 1) < mkRat 1 2
          · obtain ⟨ch, ca⟩ := ih (k + 2) (t + 1) (hRem - 1) aRem
            simp only [forcedLoop, if_neg h0, if_pos h1, if_pos hh, if_pos h2,
              countTeam_cons]
            constructor
            · simp only [show ((⟨t, Team.home⟩ : GoalEvent).team == Team.home) = true
                from rfl, if_pos]
              omega
            · simp only [show ((⟨t, Team.home⟩ : GoalEvent).team == Team.away) = false
                from rfl, if_neg, Bool.false_eq_true, Nat.add_zero]
              exact ca
          · by_cases ha : 0 < aRem
            · obtain ⟨ch, ca⟩ := ih (k + 2) (t + 1) hRem (aRem - 1)
              simp only [forcedLoop, if_neg h0, if_pos h1, if_pos hh, if_neg h2,
                if_pos ha, countTeam_cons]
              constructor
              · simp only [show ((⟨t, Team.away⟩ : GoalEvent).team == Team.home) = false
                  from rfl, Bool.false_eq_true, if_false, Nat.add_zero]
                exact ch
              · simp only [show ((⟨t, Team.away⟩ : GoalEvent).team == Team.away) = true
                  from rfl, if_pos]
                omega
            · have := ih (k + 2) (t + 1) hRem aRem
              simp only [forcedLoop, if_neg h0, if_pos h1, if_pos hh, if_neg h2,
                if_neg ha]
              exact this
        · by_cases ha : 0 < aRem
          · obtain ⟨ch, ca⟩ := ih (k + 1) (t + 1) hRem (aRem - 1)
            simp only [forcedLoop, if_neg h0, if_pos h1, if_neg hh, if_pos ha,
              countTeam_cons]
            constructor
            · simp only [show ((⟨t, Team.away⟩ : GoalEvent).team == Team.home) = false
                from rfl, Bool.false_eq_true, if_false, Nat.add_zero]
              exact ch
            · simp only [show ((⟨t, Team.away⟩ : GoalEvent).team == Team.away) = true
                from rfl, if_pos]
              omega
          · have := ih (k + 1) (t + 1) hRem aRem
            simp only [forcedLoop, if_neg h0, if_pos h1, if_neg hh, if_neg ha]
            exact this
      · have := ih (k + 1) (t + 1) hRem aRem
        simp only [forcedLoop, if_neg h0, if_neg h1]
        exact this

theorem forcedLoop_time_lb (g : Nat → ℚ) :
    ∀ (fuel k t hRem aRem : Nat), ∀ e ∈ forcedLoop g k t hRem aRem fuel, t ≤ e.time := by
  intro fuel
  induction fuel with
  | zero => intro k t hRem aRem e he; simp [forcedLoop] at he
  | succ n ih =>
    intro k t hRem aRem e he
    by_cases h0 : hRem = 0 ∧ aRem = 0
    · simp [forcedLoop, h0] at he
    · by_cases h1 : g k < mkRat 1 10
      · by_cases hh : 0 < hRem
        · by_cases h2 : g (k + 1) < mkRat 1 2
          · simp only [forcedLoop, if_neg h0, if_pos h1, if_pos hh, if_pos h2,
              List.mem_cons] at he
            rcases he with rfl | he
            · simp
            · have := ih (k + 2) (t + 1) (hRem - 1) aRem e he
              omega
          · by_cases ha : 0 < aRem
            · simp only [forcedLoop, if_neg h0, if_pos h1, if_pos hh, if_neg h2,
                if_pos ha, List.mem_cons] at he
              rcases he with rfl | he
              · simp
              · have := ih (k + 2) (t + 1) hRem (aRem - 1) e he
                omega
            · simp only [forcedLoop, if_neg h0, if_pos h1, if_pos hh, if_neg h2,
                if_neg ha] at he
              have := ih (k + 2) (t + 1) hRem aRem e he
              omega
        · by_cases ha : 0 < aRem
          · simp only [forcedLoop, if_neg h0, if_pos h1, if_neg hh, if_pos ha,
              List.mem_cons] at he
            rcases he with rfl | he
            · simp
            · have := ih (k + 1) (t + 1) hRem (aRem - 1) e he
              omega
          · simp only [forcedLoop, if_neg h0, if_pos h1, if_neg hh, if_neg ha] at he
            have := ih (k + 1) (t + 1) hRem aRem e he
            omega
      · simp only [forcedLoop, if_neg h0, if_neg h1] at he
        have := ih (k + 1) (t + 1) hRem aRem e he
        omega

theorem forcedLoop_pairwise (g : Nat → ℚ) :
    ∀ (fuel k t hRem aRem : Nat),
      List.Pairwise (fun e1 e2 : GoalEvent => e1.time ≤ e2.time)
        (forcedLoop g k t hRem aRem fuel) := by
  intro fuel
  induction fuel with
  | zero => intro k t hRem aRem; simp [forcedLoop]
  | succ n ih =>
    intro k t hRem aRem
    by_cases h0 : hRem = 0 ∧ aRem = 0
    · simp [forcedLoop, h0]
    · by_cases h1 : g k < mkRat 1 10
      · by_cases hh : 0 < hRem
        · by_cases h2 : g (k + 1) < mkRat 1 2
          · simp only [forcedLoop, if_neg h0, if_pos h1, if_pos hh, if_pos h2,
              List.pairwise_cons]
            refine ⟨fun e he => ?_, ih (k + 2) (t + 1) (hRem - 1) aRem⟩
            have := forcedLoop_time_lb g n (k + 2) (t + 1) (hRem - 1) aRem e he
            simp; omega
          · by_cases ha : 0 < aRem
            · simp only [forcedLoop, if_neg h0, if_pos h1, if_pos hh, if_neg h2,
                if_pos ha, List.pairwise_cons]
              refine ⟨fun e he => ?_, ih (k + 2) (t + 1) hRem (aRem - 1)⟩
              have := forcedLoop_time_lb g n (k + 2) (t + 1) hRem (aRem - 1) e he
              simp; omega
            · simp only [forcedLoop, if_neg h0, if_pos h1, if_pos hh, if_neg h2,
                if_neg ha]
              exact ih (k + 2) (t + 1) hRem aRem
        · by_cases ha : 0 < aRem
          · simp only [forcedLoop, if_neg h0, if_pos h1, if_neg hh, if_pos ha,
              List.pairwise_cons]
            refine ⟨fun e he => ?_, ih (k + 1) (t + 1) hRem (aRem - 1)⟩
            have := forcedLoop_time_lb g n (k + 1) (t + 1) hRem (aRem - 1) e he
            simp; omega
          · simp only [forcedLoop, if_neg h0, if_pos h1, if_neg hh, if_neg ha]
            exact ih (k + 1) (t + 1) hRem aRem
      · simp only [forcedLoop, if_neg h0, if_neg h1]
        exact ih (k + 1) (t + 1) hRem aRem

/-- C5 counterexample: in the admin-override (forced) path the claimed
invariants fail.  With target score 1-0 and a draw stream that never goes
below 0.10, `simulateMatch` emits no events at all, so `homeGoals = 1`
differs from the home event count 0 and the claimed conjunction is false
at this concrete input. -/
theorem simulateMatch_forced_event_count_counterexample :
    (simulateMatch "m" 40 (some ⟨1, 0, none⟩) (fun _ => mkRat 1 2) 0).homeGoals = 1 ∧
    countTeam Team.home
      (simulateMatch "m" 40 (some ⟨1, 0, none⟩) (fun _ => mkRat 1 2) 0).events = 0 ∧
    ¬ (let r := simulateMatch "m" 40 (some ⟨1, 0, none⟩) (fun _ => mkRat 1 2) 0
       r.homeGoals = countTeam Team.home r.events ∧
       r.awayGoals = countTeam Team.away r.events ∧
       List.Pairwise (fun e1 e2 : GoalEvent => e1.time ≤ e2.time) r.events ∧
       r.winner = winnerOf r.homeGoals r.awayGoals) := by
  decide

/-- C5 (amended): in the unforced path of `simulateMatch` the goal counts
equal the per-team event counts, events are non-decreasing in time, and the
winner is exactly the goal comparison; in the forced path the returned
score is the override target `(h, a)`, each team's event count is at most
its target, events are non-decreasing in time, and when the override gives
no explicit winner the winner is derived from `(h, a)` exactly as in the
unforced path. -/
theorem simulateMatch_result_invariants (g : Nat → ℚ) (k : Nat) (matchId : String)
    (duration h a : Nat) (w : Option MatchWinner) :
    (let r := simulateMatch matchId duration none g k
     r.homeGoals = countTeam Team.home r.events ∧
     r.awayGoals = countTeam Team.away r.events ∧
     List.Pairwise (fun e1 e2 : GoalEvent => e1.time ≤ e2.time) r.events ∧
     r.winner = winnerOf r.homeGoals r.awayGoals) ∧
    (let r := simulateMatch matchId duration (some ⟨h, a, w⟩) g k
     r.homeGoals = h ∧ r.awayGoals = a ∧
     countTeam Team.home r.events ≤ h ∧ countTeam Team.away r.events ≤ a ∧
     List.Pairwise (fun e1 e2 : GoalEvent => e1.time ≤ e2.time) r.events) ∧
    (simulateMatch matchId duration (some ⟨h, a, none⟩) g k).winner = winnerOf h a := by
  refine ⟨⟨?_, ?_, ?_, rfl⟩, ⟨rfl, rfl, ?_, ?_, ?_⟩, rfl⟩
  · exact (simLoop_counts g duration k 1).1
  · exact (simLoop_counts g duration k 1).2
  · exact simLoop_pairwise g duration k 1
  · exact (forcedLoop_counts_le g duration k 1 h a).1
  · exact (forcedLoop_counts_le g duration k 1 h a).2
  · exact forcedLoop_pairwise g duration k 1 h a

/-- C6: with an admin override providing goal targets `(h, a)`, the result
of `simulateMatch` has exactly `homeGoals = h` and `awayGoals = a` for
every random stream, and when the override gives no explicit winner the
winner is derived from `(h, a)` exactly as in the unforced path. -/
theorem simulateMatch_forced_outcome (g : Nat → ℚ) (k : Nat) (matchId : String)
    (duration h a : Nat) (w : Option MatchWinner) :
    (simulateMatch matchId duration (some ⟨h, a, w⟩) g k).homeGoals = h ∧
    (simulateMatch matchId duration (some ⟨h, a, w⟩) g k).awayGoals = a ∧
    (simulateMatch matchId duration (some ⟨h, a, none⟩) g k).winner = winnerOf h a :=
  ⟨rfl, rfl, rfl⟩

/-- C7 counterexample: for a forced-path result the full-time progressive
score can differ from the final score.  With target 1-0 and a stream that
never emits an event, `getProgressiveScore(events, 90, 40)` is `(0, 0)`
while the result's score is `(1, 0)`. -/
theorem progressive_score_fulltime_counterexample :
    getProgressiveScore
        (simulateMatch "m" 40 (some ⟨1, 0, none⟩) (fun _ => mkRat 1 2) 0).events 90 40 ≠
      ((simulateMatch "m" 40 (some ⟨1, 0, none⟩) (fun _ => mkRat 1 2) 0).homeGoals,
       (simulateMatch "m" 40 (some ⟨1, 0, none⟩) (fun _ => mkRat 1 2) 0).awayGoals) := by
  decide

/-- C7 (amended): for every unforced result of `simulateMatch` with
duration 40, the progressive score at match minute 90 equals the final
score: minute 90 maps to simulation tick 40 and every generated event has
`time ≤ 40`, so both team counts coincide with the final goal counts. -/
theorem progressive_score_fulltime_unforced (g : Nat → ℚ) (k : Nat) (matchId : String) :
    getProgressiveScore (simulateMatch matchId 40 none g k).events 90 40 =
      ((simulateMatch matchId 40 none g k).homeGoals,
       (simulateMatch matchId 40 none g k).awayGoals) := by
  have hfloor : jsFloor ((90 : ℚ) / 90 * ((40 : Nat) : ℚ)) = 40 := by
    have hsim : (90 : ℚ) / 90 * ((40 : Nat) : ℚ) = (40 : ℚ) := by norm_num
    rw [hsim]; decide
  have hb := simLoop_time_bounds g 40 k 1
  have hcount : ∀ tm : Team,
      List.countP (fun e => decide ((e.time : Int) ≤ (40 : Int)) && (e.team == tm))
        (simLoop g k 1 40).1 = countTeam tm (simLoop g k 1 40).1 := by
    intro tm
    unfold countTeam
    apply List.countP_congr
    intro e he
    have h40 : e.time ≤ 40 := by have := hb e he; omega
    have hc : ((e.time : Int) ≤ (40 : Int)) := by exact_mod_cast h40
    simp [hc]
  show (List.countP _ _, List.countP _ _) = _
  rw [show ((simulateMatch matchId 40 none g k).events) = (simLoop g k 1 40).1 from rfl]
  rw [hfloor]
  rw [hcount Team.home, hcount Team.away]
  exact Prod.ext ((simLoop_counts g 40 k 1).1.symm) ((simLoop_counts g 40 k 1).2.symm)

/-- C8: evaluation of the over/under 4.5 bracket at the failing inputs.
In the "Total Goals" market, position 2 is "Over 4.5" and position 5 is
"Under 4.5".  At (5, 0) (total 5 > 4.5) both sides get "2.00"; at (0, 0)
(total 0 < 4.5) both sides get "1.80".  The side matching the actual total
is therefore not assigned the lower odds of the bracket's 1.80/2.00 pair:
the `ov45` ternary arms are reversed relative to the 1.5/2.5/3.5
brackets. -/
theorem calculateDynamicOdds_ou45_equal_sides :
    (((calculateDynamicOdds 5 0).lookup "Total Goals").map
        (fun e => (e.odds.get? 2, e.odds.get? 5))
      = some (some "2.00", some "2.00")) ∧
    (((calculateDynamicOdds 0 0).lookup "Total Goals").map
        (fun e => (e.odds.get? 2, e.odds.get? 5))
      = some (some "1.80", some "1.80")) := by
  decide

theorem hasTwoDecimals_fixed2_ite (c : Prop) [Decidable c] (x y : Nat)
    (hx : hasTwoDecimals (fixed2 x) = true) (hy : hasTwoDecimals (fixed2 y) = true) :
    hasTwoDecimals (fixed2 (if c then x else y)) = true := by
  by_cases hc : c
  · simpa [hc] using hx
  · simpa [hc] using hy

/-- C9: the odds engine returns the pinned vectors — `1X2` odds
`["1.20","5.00","8.00"]` at (2,0), `["4.00","1.15","4.00"]` at (1,1) and
BTTS odds `["2.50","1.20"]` at (0,0) — and for every input every market of
the returned board has as many odds as selections, each rendered with
exactly two decimal places. -/
theorem calculateDynamicOdds_pinned_and_wellformed :
    (((calculateDynamicOdds 2 0).lookup "1X2").map OddsEntry.odds
        = some ["1.20", "5.00", "8.00"] ∧
     ((calculateDynamicOdds 1 1).lookup "1X2").map OddsEntry.odds
        = some ["4.00", "1.15", "4.00"] ∧
     ((calculateDynamicOdds 0 0).lookup "BTTS").map OddsEntry.odds
        = some ["2.50", "1.20"]) ∧
    ∀ (homeGoals awayGoals : Nat), ∀ p ∈ calculateDynamicOdds homeGoals awayGoals,
      p.2.selections.length = p.2.odds.length ∧
      ∀ o ∈ p.2.odds, hasTwoDecimals o = true := by
  constructor
  · exact ⟨by decide, by decide, by decide⟩
  · intro homeGoals awayGoals p hp
    simp only [calculateDynamicOdds, List.mem_cons, List.not_mem_nil, or_false] at hp
    rcases hp with rfl | rfl | rfl | rfl | rfl | rfl | rfl <;> refine ⟨rfl, ?_⟩ <;>
      simp only [List.forall_mem_cons, List.forall_mem_nil, and_true]
    all_goals repeat' apply And.intro
    all_goals try decide
    all_goals (apply hasTwoDecimals_fixed2_ite) <;> try decide
    all_goals (apply hasTwoDecimals_fixed2_ite) <;> decide

/-- Witness for C9: instantiated at (0,0) with the board's 1X2 entry. -/
theorem calculateDynamicOdds_pinned_and_wellformed_witness :
    (("1X2", ({ selections := ["1", "X", "2"], odds := ["4.00", "1.15", "4.00"] } : OddsEntry)) :
        String × OddsEntry).2.selections.length =
      (("1X2", ({ selections := ["1", "X", "2"], odds := ["4.00", "1.15", "4.00"] } : OddsEntry)) :
        String × OddsEntry).2.odds.length ∧
    ∀ o ∈ (("1X2", ({ selections := ["1", "X", "2"], odds := ["4.00", "1.15", "4.00"] } : OddsEntry)) :
        String × OddsEntry).2.odds,
      hasTwoDecimals o = true :=
  calculateDynamicOdds_pinned_and_wellformed.2 0 0
    ("1X2", { selections := ["1", "X", "2"], odds := ["4.00", "1.15", "4.00"] }) (by decide)

/-- C10: for any time strictly before the schedule's reference epoch (with
a positive match interval), the derived schedule index is negative,
`getMatchAtTime` returns `none`, and `getCurrentMatch` returns `none`;
neither reaches the pool-indexing step. -/
theorem schedule_negative_index_yields_none (time : Int) (allMatches : List PoolMatch)
    (sched : GlobalSchedule) (hpos : 0 < sched.matchInterval)
    (hlt : time < sched.referenceEpoch) :
    findScheduleIndexForTime time sched < 0 ∧
    getMatchAtTime time allMatches sched = none ∧
    getCurrentMatch allMatches time sched = none := by
  have hneg : time - sched.referenceEpoch < 0 := by omega
  have hdpos : (0 : Int) < sched.matchInterval * 60000 := by positivity
  have hidx : findScheduleIndexForTime time sched < 0 := by
    unfold findScheduleIndexForTime
    exact Int.fdiv_neg' hneg hdpos
  refine ⟨hidx, ?_, ?_⟩
  · simp [getMatchAtTime, hidx]
  · by_cases hlen : allMatches.length = 0 <;> simp [getCurrentMatch, hlen, hidx]

/-- Witness for C10: one millisecond before a reference epoch of 0 with a
30-minute interval and an empty pool. -/
theorem schedule_negative_index_yields_none_witness :
    findScheduleIndexForTime (-1) ⟨0, 30⟩ < 0 ∧
    getMatchAtTime (-1) [] ⟨0, 30⟩ = none ∧
    getCurrentMatch [] (-1) ⟨0, 30⟩ = none :=
  schedule_negative_index_yields_none (-1) [] ⟨0, 30⟩ (by decide) (by decide)

theorem weekAdvanceEffect_nonPre (env : WeekAdvanceEnv) (s : WeekAdvanceState)
    (p : MatchPhase) (hg : env.globalTimeActive = false)
    (hp : p ≠ MatchPhase.preCountdown) :
    weekAdvanceEffect env s p =
      some { s with hasAdvancedThisCycle := false, prevMatchState := p } := by
  simp [weekAdvanceEffect, hg, hp]

theorem weekAdvanceEffect_pre_guarded (env : WeekAdvanceEnv) (s : WeekAdvanceState)
    (hg : env.globalTimeActive = false) (hguard : s.hasAdvancedThisCycle = true) :
    weekAdvanceEffect env s MatchPhase.preCountdown =
      some { s with prevMatchState := MatchPhase.preCountdown } := by
  simp [weekAdvanceEffect, hg, hguard]

theorem runWeekAdvance_replicate_fixed (env : WeekAdvanceEnv) (p : MatchPhase)
    (hg : env.globalTimeActive = false) (hp : p ≠ MatchPhase.preCountdown) :
    ∀ (n : Nat) (t : WeekAdvanceState), t.hasAdvancedThisCycle = false →
      t.prevMatchState = p → runWeekAdvance env t (List.replicate n p) = some t := by
  intro n
  induction n with
  | zero => intro t h1 h2; simp [runWeekAdvance]
  | succ m ih =>
    intro t h1 h2
    have heq : ({ t with hasAdvancedThisCycle := false, prevMatchState := p } :
        WeekAdvanceState) = t := by
      cases t; simp_all
    rw [List.replicate_succ]
    simp only [runWeekAdvance, weekAdvanceEffect_nonPre env t p hg hp, heq]
    exact ih t h1 h2

theorem runWeekAdvance_replicate_pre_guarded (env : WeekAdvanceEnv)
    (hg : env.globalTimeActive = false) :
    ∀ (n : Nat) (t : WeekAdvanceState), t.hasAdvancedThisCycle = true →
      t.prevMatchState = MatchPhase.preCountdown →
      runWeekAdvance env t (List.replicate n MatchPhase.preCountdown) = some t := by
  intro n
  induction n with
  | zero => intro t h1 h2; simp [runWeekAdvance]
  | succ m ih =>
    intro t h1 h2
    have heq : ({ t with prevMatchState := MatchPhase.preCountdown } :
        WeekAdvanceState) = t := by
      cases t; simp_all
    rw [List.replicate_succ]
    simp only [runWeekAdvance, weekAdvanceEffect_pre_guarded env t hg h1, heq]
    exact ih t h1 h2

theorem runWeekAdvance_replicate_nonPre_full (env : WeekAdvanceEnv) (p : MatchPhase)
    (hg : env.globalTimeActive = false) (hp : p ≠ MatchPhase.preCountdown)
    (kk : Nat) (t : WeekAdvanceState) (hkk : 1 ≤ kk) :
    runWeekAdvance env t (List.replicate kk p) =
      some { t with hasAdvancedThisCycle := false, prevMatchState := p } := by
  obtain ⟨m, rfl⟩ : ∃ m, kk = m + 1 := ⟨kk - 1, by omega⟩
  rw [List.replicate_succ]
  simp only [runWeekAdvance, weekAdvanceEffect_nonPre env t p hg hp]
  exact runWeekAdvance_replicate_fixed env p hg hp m _ rfl rfl

theorem runWeekAdvance_append (env : WeekAdvanceEnv) (l1 l2 : List MatchPhase) :
    ∀ s : WeekAdvanceState, runWeekAdvance env s (l1 ++ l2) =
      (runWeekAdvance env s l1).bind (fun s' => runWeekAdvance env s' l2) := by
  induction l1 with
  | nil => intro s; simp [runWeekAdvance]
  | cons p ps ih =>
    intro s
    simp only [List.cons_append, runWeekAdvance]
    cases h : weekAdvanceEffect env s p with
    | none => simp
    | some s' => simp [ih s']

/-- C1: in cycle-driven (non-global-time) mode, a full phase cycle
`pre-countdown → playing → betting → next-countdown` (each phase observed
at least once, the first pre-countdown observations arriving with
`prevMatchState = next-countdown` and the guard clear) advances the
timeframe index by exactly one, wrapping to 0 and regenerating the
fixtures past the final week (assuming the one-shot auto-reshuffle, which
reloads the page, does not fire); re-evaluations while still in
pre-countdown are suppressed by the `hasAdvancedThisCycle` guard, and the
guard is reset by any observation of a phase other than pre-countdown. -/
theorem week_cycle_advances_exactly_once (env : WeekAdvanceEnv) (s : WeekAdvanceState)
    (k1 k2 k3 k4 : Nat) (hg : env.globalTimeActive = false)
    (har : env.autoReshuffleFires = false)
    (hprev : s.prevMatchState = MatchPhase.nextCountdown)
    (hguard : s.hasAdvancedThisCycle = false)
    (h1 : 1 ≤ k1) (h2 : 1 ≤ k2) (h3 : 1 ≤ k3) (h4 : 1 ≤ k4) :
    (∃ s' : WeekAdvanceState,
      runWeekAdvance env s
        (List.replicate k1 MatchPhase.preCountdown ++
          (List.replicate k2 MatchPhase.playing ++
            (List.replicate k3 MatchPhase.betting ++
              List.replicate k4 MatchPhase.nextCountdown))) = some s' ∧
      s'.currentTimeframeIdx =
        (if totalWeeks ≤ s.currentTimeframeIdx + 1 then 0 else s.currentTimeframeIdx + 1) ∧
      s'.prevMatchState = MatchPhase.nextCountdown ∧
      s'.hasAdvancedThisCycle = false ∧
      (totalWeeks ≤ s.currentTimeframeIdx + 1 →
        s'.fixtureSchedule = generateLeagueFixtures env.leagueTeams) ∧
      (s.currentTimeframeIdx + 1 < totalWeeks → s'.fixtureSchedule = s.fixtureSchedule)) ∧
    (∀ s2 : WeekAdvanceState, s2.hasAdvancedThisCycle = true →
      weekAdvanceEffect env s2 MatchPhase.preCountdown =
        some { s2 with prevMatchState := MatchPhase.preCountdown }) ∧
    (∀ (s2 : WeekAdvanceState) (p : MatchPhase), p ≠ MatchPhase.preCountdown →
      weekAdvanceEffect env s2 p =
        some { s2 with hasAdvancedThisCycle := false, prevMatchState := p }) := by
  refine ⟨?_, fun s2 hs2 => weekAdvanceEffect_pre_guarded env s2 hg hs2,
    fun s2 p hp => weekAdvanceEffect_nonPre env s2 p hg hp⟩
  obtain ⟨m1, rfl⟩ : ∃ m, k1 = m + 1 := ⟨k1 - 1, by omega⟩
  by_cases hw : totalWeeks ≤ s.currentTimeframeIdx + 1
  · refine ⟨⟨MatchPhase.nextCountdown, false, 0, 0, generateLeagueFixtures env.leagueTeams⟩,
      ?_, by rw [if_pos hw], rfl, rfl, fun _ => rfl, fun hlt => absurd hw (by omega)⟩
    have hstep : weekAdvanceEffect env s MatchPhase.preCountdown = some
        { prevMatchState := MatchPhase.preCountdown, hasAdvancedThisCycle := true,
          currentTimeframeIdx := 0, liveTimeframeIdx := 0,
          fixtureSchedule := generateLeagueFixtures env.leagueTeams } := by
      simp [weekAdvanceEffect, hg, har, hprev, hguard, hw]
    have e1 : runWeekAdvance env s (List.replicate (m1 + 1) MatchPhase.preCountdown) = some
        { prevMatchState := MatchPhase.preCountdown, hasAdvancedThisCycle := true,
          currentTimeframeIdx := 0, liveTimeframeIdx := 0,
          fixtureSchedule := generateLeagueFixtures env.leagueTeams } := by
      rw [List.replicate_succ]
      simp only [runWeekAdvance, hstep]
      exact runWeekAdvance_replicate_pre_guarded env hg m1 _ rfl rfl
    rw [runWeekAdvance_append env _ _ s, e1, Option.some_bind]
    rw [runWeekAdvance_append env _ _ _,
      runWeekAdvance_replicate_nonPre_full env MatchPhase.playing hg (by decide) k2 _ h2,
      Option.some_bind]
    rw [runWeekAdvance_append env _ _ _,
      runWeekAdvance_replicate_nonPre_full env MatchPhase.betting hg (by decide) k3 _ h3,
      Option.some_bind]
    rw [runWeekAdvance_replicate_nonPre_full env MatchPhase.nextCountdown hg (by decide) k4 _ h4]
  · refine ⟨⟨MatchPhase.nextCountdown, false, s.currentTimeframeIdx + 1,
        s.currentTimeframeIdx + 1, s.fixtureSchedule⟩,
      ?_, by rw [if_neg hw], rfl, rfl, fun hge => absurd hge hw, fun _ => rfl⟩
    have hstep : weekAdvanceEffect env s MatchPhase.preCountdown = some
        { s with
          prevMatchState := MatchPhase.preCountdown
          hasAdvancedThisCycle := true
          currentTimeframeIdx := s.currentTimeframeIdx + 1
          liveTimeframeIdx := s.currentTimeframeIdx + 1 } := by
      simp [weekAdvanceEffect, hg, har, hprev, hguard, hw]
    have e1 : runWeekAdvance env s (List.replicate (m1 + 1) MatchPhase.preCountdown) = some
        { s with
          prevMatchState := MatchPhase.preCountdown
          hasAdvancedThisCycle := true
          currentTimeframeIdx := s.currentTimeframeIdx + 1
          liveTimeframeIdx := s.currentTimeframeIdx + 1 } := by
      rw [List.replicate_succ]
      simp only [runWeekAdvance, hstep]
      exact runWeekAdvance_replicate_pre_guarded env hg m1 _ rfl rfl
    rw [runWeekAdvance_append env _ _ s, e1, Option.some_bind]
    rw [runWeekAdvance_append env _ _ _,
      runWeekAdvance_replicate_nonPre_full env MatchPhase.playing hg (by decide) k2 _ h2,
      Option.some_bind]
    rw [runWeekAdvance_append env _ _ _,
      runWeekAdvance_replicate_nonPre_full env MatchPhase.betting hg (by decide) k3 _ h3,
      Option.some_bind]
    rw [runWeekAdvance_replicate_nonPre_full env MatchPhase.nextCountdown hg (by decide) k4 _ h4]

/-- Witness for C1: a concrete two-team league at timeframe 3, observing
each phase of the cycle once. -/
theorem week_cycle_advances_exactly_once_witness :
    (∃ s' : WeekAdvanceState,
      runWeekAdvance ⟨false, false, ["Alpha", "Beta"]⟩
        ⟨MatchPhase.nextCountdown, false, 3, 3, []⟩
        (List.replicate 1 MatchPhase.preCountdown ++
          (List.replicate 1 MatchPhase.playing ++
            (List.replicate 1 MatchPhase.betting ++
              List.replicate 1 MatchPhase.nextCountdown))) = some s' ∧
      s'.currentTimeframeIdx = (if totalWeeks ≤ 3 + 1 then 0 else 3 + 1) ∧
      s'.prevMatchState = MatchPhase.nextCountdown ∧
      s'.hasAdvancedThisCycle = false ∧
      (totalWeeks ≤ 3 + 1 → s'.fixtureSchedule = generateLeagueFixtures ["Alpha", "Beta"]) ∧
      (3 + 1 < totalWeeks → s'.fixtureSchedule = [])) ∧
    (∀ s2 : WeekAdvanceState, s2.hasAdvancedThisCycle = true →
      weekAdvanceEffect ⟨false, false, ["Alpha", "Beta"]⟩ s2 MatchPhase.preCountdown =
        some { s2 with prevMatchState := MatchPhase.preCountdown }) ∧
    (∀ (s2 : WeekAdvanceState) (p : MatchPhase), p ≠ MatchPhase.preCountdown →
      weekAdvanceEffect ⟨false, false, ["Alpha", "Beta"]⟩ s2 p =
        some { s2 with hasAdvancedThisCycle := false, prevMatchState := p }) :=
  week_cycle_advances_exactly_once ⟨false, false, ["Alpha", "Beta"]⟩
    ⟨MatchPhase.nextCountdown, false, 3, 3, []⟩ 1 1 1 1 rfl rfl rfl rfl
    (by decide) (by decide) (by decide) (by decide)

/-- C2: while the `resultsSavedForPhase` flag is set, a run of the
settlement effect performs no settlement operation and schedules no sweep
timer; the flag comes out clear exactly when the phase is not `betting`;
and a run in the betting phase with the flag clear and a selected
timeframe performs the full per-match settlement and sets the flag
(re-arming on the next betting phase). -/
theorem settlement_idempotent (env : SettlementEnv) (ms : List MatchupEntry) :
    ((settlementEffect env true).actions = [] ∧
      (settlementEffect env true).sweepTimers = []) ∧
    ((settlementEffect env true).resultsSavedAfter = false ↔
      env.matchState ≠ MatchPhase.betting) ∧
    (env.matchState = MatchPhase.betting → env.timeframeMatches = some ms →
      (settlementEffect env false).actions = (ms.map (processMatchResult env)).flatten ∧
      (settlementEffect env false).resultsSavedAfter = true) := by
  refine ⟨⟨?_, ?_⟩, ?_, fun hb hm => ⟨?_, ?_⟩⟩
  · simp [settlementEffect]
  · simp [settlementEffect]
  · by_cases hb : env.matchState = MatchPhase.betting <;> simp [settlementEffect, hb]
  · simp [settlementEffect, hb, hm]
  · simp [settlementEffect, hb, hm]

/-- Witness for C2: a one-match timeframe in the betting phase with the
flag clear triggers settlement and sets the flag. -/
theorem settlement_idempotent_witness :
    (settlementEffect
        ⟨MatchPhase.betting, some [⟨"m1", "H", "A"⟩],
          fun _ => some ⟨2, 1, MatchWinner.home, []⟩, fun _ => true, fun _ => false⟩
        false).actions =
      (([⟨"m1", "H", "A"⟩] : List MatchupEntry).map
        (processMatchResult
          ⟨MatchPhase.betting, some [⟨"m1", "H", "A"⟩],
            fun _ => some ⟨2, 1, MatchWinner.home, []⟩, fun _ => true,
            fun _ => false⟩)).flatten ∧
    (settlementEffect
        ⟨MatchPhase.betting, some [⟨"m1", "H", "A"⟩],
          fun _ => some ⟨2, 1, MatchWinner.home, []⟩, fun _ => true, fun _ => false⟩
        false).resultsSavedAfter = true :=
  (settlement_idempotent
    ⟨MatchPhase.betting, some [⟨"m1", "H", "A"⟩],
      fun _ => some ⟨2, 1, MatchWinner.home, []⟩, fun _ => true, fun _ => false⟩
    [⟨"m1", "H", "A"⟩]).2.2 rfl rfl

/-- C3: whenever the per-match settlement trace contains a
`resolveBetsForMatch(matchId, homeGoals, awayGoals)` call, the goals are
the cached simulation's, and strictly earlier in the trace the same match
had its `match_results` record upserted with `is_final = true`, the winner
derived from those cached goals, and update-in-place exactly when a record
already existed. -/
theorem upsert_before_resolve (env : SettlementEnv) (m : MatchupEntry) (i : Nat)
    (mid : String) (h a : Nat)
    (hres : (processMatchResult env m).get? i =
      some (SettlementAction.resolveBets mid h a)) :
    mid = m.id ∧ ∃ (j : Nat) (sim : SimResult), j < i ∧
      env.matchSimCache m.id = some sim ∧ h = sim.homeGoals ∧ a = sim.awayGoals ∧
      (processMatchResult env m).get? j =
        some (SettlementAction.upsertMatchResult mid h a (winnerOf h a) true
          (env.matchResultExistsInDb mid)) := by
  cases hc : env.matchSimCache m.id with
  | none => simp [processMatchResult, hc] at hres
  | some sim =>
    by_cases hdb : env.matchExistsInDb m.id
    · rcases i with _ | _ | _ | _ | i
      · simp [processMatchResult, hc, hdb, List.get?] at hres
      · simp [processMatchResult, hc, hdb, List.get?] at hres
      · simp [processMatchResult, hc, hdb, List.get?] at hres
      · simp only [processMatchResult, hc, hdb, if_pos, List.get?,
          Option.some.injEq, SettlementAction.resolveBets.injEq] at hres
        obtain ⟨h1, h2, h3⟩ := hres
        subst h1; subst h2; subst h3
        refine ⟨rfl, 2, sim, by omega, rfl, rfl, rfl, ?_⟩
        simp [processMatchResult, hc, hdb, List.get?]
      · simp [processMatchResult, hc, hdb, List.get?] at hres
    · rcases i with _ | i <;> simp [processMatchResult, hc, hdb, List.get?] at hres

/-- Witness for C3: a concrete environment where the resolve call sits at
index 3 of the per-match trace. -/
theorem upsert_before_resolve_witness :
    "m1" = (⟨"m1", "H", "A"⟩ : MatchupEntry).id ∧ ∃ (j : Nat) (sim : SimResult), j < 3 ∧
      (fun _ => some (⟨2, 1, MatchWinner.home, []⟩ : SimResult))
          (⟨"m1", "H", "A"⟩ : MatchupEntry).id = some sim ∧
      2 = sim.homeGoals ∧ 1 = sim.awayGoals ∧
      (processMatchResult
          ⟨MatchPhase.betting, some [⟨"m1", "H", "A"⟩],
            fun _ => some ⟨2, 1, MatchWinner.home, []⟩, fun _ => true, fun _ => false⟩
          ⟨"m1", "H", "A"⟩).get? j =
        some (SettlementAction.upsertMatchResult "m1" 2 1 (winnerOf 2 1) true
          ((fun _ => false) "m1")) :=
  upsert_before_resolve
    ⟨MatchPhase.betting, some [⟨"m1", "H", "A"⟩],
      fun _ => some ⟨2, 1, MatchWinner.home, []⟩, fun _ => true, fun _ => false⟩
    ⟨"m1", "H", "A"⟩ 3 "m1" 2 1 (by decide)

/-- C4: a settlement run in the betting phase schedules the 95000 ms
stale-bet sweep timer for every match of the timeframe, but the effect
returns no cleanup to React (the cancel closure is created inside the
async handler where React never receives it), so no sweep timer is
cancelled on teardown. -/
theorem sweep_timers_scheduled_but_not_cancelled (ms : List MatchupEntry)
    (simCache : String → Option SimResult) (mex rex : String → Bool) :
    (settlementEffect ⟨MatchPhase.betting, some ms, simCache, mex, rex⟩
        false).sweepTimers = ms.map (fun m => (m.id, 95000)) ∧
    (settlementEffect ⟨MatchPhase.betting, some ms, simCache, mex, rex⟩
        false).reactCleanup = none := by
  constructor
  · simp [settlementEffect]
  · rfl
